import Mathlib

/-!
Verification of the concurrent rate-limited summary-generation pipeline in
`modules/summary_generator.py` (the `ApiRateLimiter` throttle, the
`generate_summary` retry loop with 429 leader election, and the
`process_file` idempotent-write orchestration).

The shallow embedding translates the Python classes and functions into pure
Lean functions.  Shared mutable limiter state becomes an explicit
`LimiterState` threaded through each operation; the environment (results of
remote calls, and whether a blocking wait on the rate-limit event ended by
release or by timeout) is supplied as explicit input lists; the unbounded
`while True` loop of `generate_summary` is run on explicit fuel, with a
distinguished `outOfFuel` result marking runs the supplied environment does
not finish (a model artifact, not a return of the Python function).
-/

/-- State of `ApiRateLimiter` relevant to leader election:
`eventSet` is `rate_limit_event.is_set()` (`true` means calls are allowed),
`retrierId` is `retrier_id` (the thread currently designated as the 429
retrier, i.e. the backoff leader, or `none`).
The field `last_call_time` used only by `wait_for_interval` is modelled
separately below. -/
structure LimiterState where
  eventSet : Bool
  retrierId : Option Nat
deriving DecidableEq, Repr

/-- `ApiRateLimiter.__init__`: the event starts set (calls allowed) and no
retrier is assigned. -/
def initialLimiter : LimiterState := { eventSet := true, retrierId := none }

/-- `ApiRateLimiter.is_rate_limited`: `not self.rate_limit_event.is_set()`. -/
def is_rate_limited (s : LimiterState) : Bool := !s.eventSet

/-- `ApiRateLimiter.try_become_retrier(thread_id)`: under the retrier lock,
if not rate limited, clear the event, record the caller as retrier and
return `True`; otherwise return whether the caller already is the
retrier (state unchanged). -/
def try_become_retrier (s : LimiterState) (tid : Nat) : LimiterState × Bool :=
  if !(is_rate_limited s) then
    ({ eventSet := false, retrierId := some tid }, true)
  else
    (s, s.retrierId == some tid)

/-- `ApiRateLimiter.release_rate_limit(thread_id)`: under the retrier lock,
if rate limited and the caller is the recorded retrier, clear the retrier,
set the event and return `True`; otherwise leave the state unchanged and
return `False`. -/
def release_rate_limit (s : LimiterState) (tid : Nat) : LimiterState × Bool :=
  if is_rate_limited s && s.retrierId == some tid then
    ({ eventSet := true, retrierId := none }, true)
  else
    (s, false)

/-- Outcome of one blocking `rate_limit_event.wait(timeout)`: either the
leader released the limit before the timeout, or the wait timed out. -/
inductive WaitResult
  | released
  | timedOut
deriving DecidableEq, Repr

/-- `ApiRateLimiter.wait_for_rate_limit_release(timeout)`: if the event is
already set, return `True` immediately; otherwise block on the event and
return whether it was set before the timeout.  A `released` outcome means
the retrier executed `release_rate_limit`, which sets the event and clears
the retrier; a timeout leaves the state unchanged. -/
def wait_for_rate_limit_release (s : LimiterState) (w : WaitResult) : LimiterState × Bool :=
  if is_rate_limited s then
    match w with
    | .released => ({ eventSet := true, retrierId := none }, true)
    | .timedOut => (s, false)
  else
    (s, true)

/-- The throttle invariant: the overload flag is raised (`rate_limit_event`
cleared) exactly when a retrier (leader) is assigned.  Since `retrierId` is
a single optional field, at most one thread is ever recorded as leader. -/
def LimiterInv (s : LimiterState) : Prop :=
  is_rate_limited s = s.retrierId.isSome

instance (s : LimiterState) : Decidable (LimiterInv s) := by
  unfold LimiterInv; infer_instance

/-! ### The interval throttle (`wait_for_interval`)

`wait_for_interval(interval)` holds `interval_lock`, reads `time.time()`
(`now`), and when less than `interval` has elapsed since `last_call_time`
sleeps for the remainder; it then records a fresh `time.time()` (`wake`) as
the new `last_call_time`.  `sleep` never wakes early and the clock is
monotone, so the recorded `wake` is at least the target computed below. -/

/-- The earliest instant `wait_for_interval` can record as the new
`last_call_time`: `now` itself when the interval has already elapsed, and
`now + (interval - (now - last))` after sleeping for the remainder. -/
def wait_for_interval_target (last interval now : ℚ) : ℚ :=
  if now - last < interval then now + (interval - (now - last)) else now

/-- One guarded execution of `wait_for_interval`, recording `wake` as the
new `last_call_time`, is admissible when `wake` is no earlier than the
target instant. -/
def IntervalStep (last interval now wake : ℚ) : Prop :=
  wait_for_interval_target last interval now ≤ wake

/-- A sequence of `wait_for_interval` executions: each entry `(now, wake)`
gives the clock reading on entry and the recorded new `last_call_time`. -/
def ValidIntervalTrace (interval : ℚ) : ℚ → List (ℚ × ℚ) → Prop
  | _, [] => True
  | last, (now, wake) :: rest =>
      IntervalStep last interval now wake ∧ ValidIntervalTrace interval wake rest

/-- The successive values recorded into `last_call_time` by a trace. -/
def recordedTimes : List (ℚ × ℚ) → List ℚ :=
  fun ts => ts.map Prod.snd

/-! ### The `generate_summary` retry loop

`SummaryGenerator.generate_summary` runs an unbounded loop.  Each iteration:
calls `wait_for_interval` (affects only the interval clock, modelled above);
if rate limited and this thread is not the retrier, blocks in
`wait_for_rate_limit_release(timeout=300)` and `continue`s (whether the wait
was released or timed out); re-checks (double check) the same condition and
`continue`s if it holds; otherwise issues the remote call.  On success it
releases the limit if it was the 429 retrier and returns; on a 429 error it
runs `handle_429_error` (become retrier and sleep, or wait as follower) and
`continue`s; on any other error it increments `attempt`, returns failure
once `attempt >= max_retries`, and otherwise sleeps `retry_delay` and
`continue`s.  A `finally` block releases the rate limit when the function
exits while still being the 429 retrier.

The environment supplies a list of `WaitResult`s (consumed by each blocking
wait on the rate-limit event) and a list of `CallOutcome`s (one per remote
call issued). -/

/-- Outcome of one remote `chat.completions.create` call as classified by
the `except` clause of `generate_summary`: success with the stripped
message content, an exception carrying a 429 signal, or any other
exception with its message (the code has no further classification; a
malformed response also surfaces as `otherErr`). -/
inductive CallOutcome
  | success (s : String)
  | http429
  | otherErr (msg : String)
deriving DecidableEq, Repr

/-- Result of `generate_summary`: `(True, summary, "")` or
`(False, "", error_msg)` in the Python tuple; `outOfFuel` marks a run the
supplied environment does not finish (model artifact). -/
inductive GsResult
  | ok (summary : String)
  | failed (msg : String)
  | outOfFuel
deriving DecidableEq, Repr

/-- State threaded through the `generate_summary` loop: the shared limiter,
the local `is_429_retrier` flag and `attempt` counter, plus two
instrumentation counters: remote calls issued (`callsMade`) and
`retry_delay` sleeps taken after non-429 errors (`retrySleeps`). -/
structure GsState where
  limiter : LimiterState
  is429Retrier : Bool
  attempt : Nat
  callsMade : Nat
  retrySleeps : Nat
deriving DecidableEq, Repr

/-- The `finally` block of `generate_summary`: if the thread is still the
429 retrier and the limit is active, release it. -/
def gs_finally (tid : Nat) (st : GsState) : GsState :=
  if st.is429Retrier && is_rate_limited st.limiter then
    { st with limiter := (release_rate_limit st.limiter tid).1 }
  else st

/-- Result of one iteration of the `while True` body: a `return` (with the
`finally` block already applied), a `continue` with the updated state and
remaining environment, or `stuck` when the environment list the iteration
needs is exhausted (model artifact). -/
inductive StepRes
  | ret (r : GsResult) (st : GsState)
  | cont (st : GsState) (waits : List WaitResult) (calls : List CallOutcome)
  | stuck (st : GsState)
deriving DecidableEq, Repr

/-- One iteration of the `generate_summary` loop body. -/
def gsStep (tid maxRetries : Nat) (st : GsState) (waits : List WaitResult)
    (calls : List CallOutcome) : StepRes :=
  -- rate_limiter.wait_for_interval(...): interval clock only, no effect here
  if is_rate_limited st.limiter && !(st.limiter.retrierId == some tid) then
    match waits with
    | [] => .stuck st
    | w :: ws =>
      let (lim', _) := wait_for_rate_limit_release st.limiter w
      .cont { st with limiter := lim' } ws calls
  -- double check inside the try block (same condition, same snapshot)
  else if is_rate_limited st.limiter && !(st.limiter.retrierId == some tid) then
    .cont st waits calls
  else
    match calls with
    | [] => .stuck st
    | c :: cs =>
      let st1 := { st with callsMade := st.callsMade + 1 }
      match c with
      | .success s =>
        if st1.is429Retrier then
          let (lim', _) := release_rate_limit st1.limiter tid
          .ret (.ok s) (gs_finally tid { st1 with limiter := lim', is429Retrier := false })
        else
          .ret (.ok s) (gs_finally tid st1)
      | .http429 =>
        -- handle_429_error(current_thread_id, retry_delay)
        let (lim', became) := try_become_retrier st1.limiter tid
        if became then
          -- retrier path: sleep(retry_delay) then continue as retrier
          .cont { st1 with limiter := lim', is429Retrier := true } waits cs
        else
          -- follower path: wait_for_rate_limit_release then continue
          match waits with
          | [] => .stuck { st1 with limiter := lim' }
          | w :: ws =>
            let (lim'', _) := wait_for_rate_limit_release lim' w
            .cont { st1 with limiter := lim'' } ws cs
      | .otherErr msg =>
        let attempt1 := st1.attempt + 1
        if maxRetries ≤ attempt1 then
          .ret (.failed msg) (gs_finally tid { st1 with attempt := attempt1 })
        else
          .cont { st1 with attempt := attempt1, retrySleeps := st1.retrySleeps + 1 } waits cs

/-- The `while True` loop of `generate_summary`, on explicit fuel: iterate
`gsStep`.  `waits` feeds each blocking wait on the rate-limit event,
`calls` feeds each remote call; `outOfFuel` returns the in-loop state. -/
def gsLoop (tid maxRetries : Nat) :
    Nat → GsState → List WaitResult → List CallOutcome → GsResult × GsState
  | 0, st, _, _ => (.outOfFuel, st)
  | fuel + 1, st, waits, calls =>
    match gsStep tid maxRetries st waits calls with
    | .ret r st' => (r, st')
    | .stuck st' => (.outOfFuel, st')
    | .cont st' ws cs => gsLoop tid maxRetries fuel st' ws cs

/-- `SummaryGenerator.generate_summary` for one thread, driven by an
explicit environment. -/
def generate_summary (tid maxRetries fuel : Nat) (st : GsState)
    (waits : List WaitResult) (calls : List CallOutcome) : GsResult × GsState :=
  gsLoop tid maxRetries fuel st waits calls

/-- A fresh `generate_summary` activation on a limiter state `lim`:
`is_429_retrier = False`, `attempt = 0`, counters zeroed. -/
def gsStart (lim : LimiterState) : GsState :=
  { limiter := lim, is429Retrier := false, attempt := 0, callsMade := 0, retrySleeps := 0 }

/-! ### `process_file`: idempotency check and atomic write

`SummaryGenerator.process_file` loads the item's JSON object, skips (as
success) when a non-empty `summary` field is present, fails when `content`
is missing or empty, otherwise calls `generate_summary`; on a successful
non-empty summary it sets `data['summary']` and atomically replaces the
file (write to `<path>.temp`, then `os.replace`), else it returns failure
without writing.  The JSON object is modelled as an association list of
string fields (first occurrence wins, keys unique in practice); the
atomic temp-write-then-rename is modelled as the single transition from
the old persisted record to the new one. -/

/-- Field lookup in the JSON object (`data[k]`, `k in data`). -/
def lookupField : List (String × String) → String → Option String
  | [], _ => none
  | p :: rest, key => if p.1 = key then some p.2 else lookupField rest key

/-- Python truthiness test `k in data and data[k]` for a string field. -/
def hasNonEmpty (data : List (String × String)) (key : String) : Bool :=
  match lookupField data key with
  | some v => !(v == "")
  | none => false

/-- Dict assignment `data[k] = v`: replace the field in place when present,
append it otherwise. -/
def setField (data : List (String × String)) (key v : String) : List (String × String) :=
  if (lookupField data key).isSome then
    data.map (fun p => if p.1 = key then (key, v) else p)
  else
    data ++ [(key, v)]

/-- `SummaryGenerator.process_file` on the decoded record `data`, with the
remote environment made explicit.  Returns `none` when `generate_summary`
runs out of fuel (model artifact), else `some (success, persisted record
after the run, number of remote calls issued)`. -/
def process_file (tid maxRetries fuel : Nat) (lim : LimiterState)
    (waits : List WaitResult) (calls : List CallOutcome)
    (data : List (String × String)) : Option (Bool × List (String × String) × Nat) :=
  if hasNonEmpty data "summary" then
    some (true, data, 0)
  else if !(hasNonEmpty data "content") then
    some (false, data, 0)
  else
    match generate_summary tid maxRetries fuel (gsStart lim) waits calls with
    | (.outOfFuel, _) => none
    | (.ok s, st') =>
      if s == "" then some (false, data, st'.callsMade)
      else some (true, setField data "summary" s, st'.callsMade)
    | (.failed _, st') => some (false, data, st'.callsMade)

theorem wait_for_interval_target_ge (last interval now : ℚ) :
    last + interval ≤ wait_for_interval_target last interval now := by
  unfold wait_for_interval_target
  split <;> linarith

/-- Local/global retrier-state agreement during a `generate_summary`
activation: when the thread's local `is_429_retrier` flag is set the
shared limiter records it as the (rate-limiting) retrier, and when the
flag is clear the shared limiter does not record it as retrier. -/
def GsInv (tid : Nat) (st : GsState) : Prop :=
  (st.is429Retrier = true → st.limiter = { eventSet := false, retrierId := some tid }) ∧
  (st.is429Retrier = false → st.limiter.retrierId ≠ some tid)

instance (tid : Nat) (st : GsState) : Decidable (GsInv tid st) := by
  unfold GsInv; infer_instance

theorem gs_finally_attempt (tid : Nat) (st : GsState) :
    (gs_finally tid st).attempt = st.attempt := by
  unfold gs_finally; split <;> rfl

theorem gs_finally_of_not_limited (tid : Nat) (st : GsState)
    (h : is_rate_limited st.limiter = false) : gs_finally tid st = st := by
  unfold gs_finally
  rw [h]
  simp

theorem gsStep_inv (tid mr : Nat) (st : GsState) (waits : List WaitResult)
    (calls : List CallOutcome) (h : GsInv tid st) :
    match gsStep tid mr st waits calls with
    | .ret _ st' => st'.limiter.retrierId ≠ some tid
    | .cont st' _ _ => GsInv tid st'
    | .stuck st' => GsInv tid st' := by
  obtain ⟨⟨ev, rid⟩, flag, att, cm, rs⟩ := st
  obtain ⟨h1, h2⟩ := h
  cases flag with
  | true =>
    have h3 := h1 rfl
    rw [LimiterState.mk.injEq] at h3
    obtain ⟨rfl, rfl⟩ := h3
    cases calls with
    | nil => simp [gsStep, is_rate_limited, GsInv, h1]
    | cons c cs =>
      cases c with
      | success s =>
        simp [gsStep, is_rate_limited, release_rate_limit, gs_finally]
      | http429 =>
        simp [gsStep, is_rate_limited, try_become_retrier, GsInv]
      | otherErr msg =>
        by_cases hle : mr ≤ att + 1 <;>
          simp [gsStep, is_rate_limited, hle, gs_finally, release_rate_limit, GsInv]
  | false =>
    have h3 := h2 rfl
    have hbeq : (rid == some tid) = false := by simpa using h3
    cases ev with
    | false =>
      cases waits with
      | nil => simp [gsStep, is_rate_limited, hbeq, GsInv, h2, h3]
      | cons w ws =>
        cases w <;>
          simp [gsStep, is_rate_limited, hbeq, wait_for_rate_limit_release, GsInv, h3]
    | true =>
      cases calls with
      | nil => simp [gsStep, is_rate_limited, hbeq, GsInv, h3]
      | cons c cs =>
        cases c with
        | success s =>
          simp [gsStep, is_rate_limited, hbeq, gs_finally, h3]
        | http429 =>
          simp [gsStep, is_rate_limited, hbeq, try_become_retrier, GsInv]
        | otherErr msg =>
          by_cases hle : mr ≤ att + 1 <;>
            simp [gsStep, is_rate_limited, hbeq, hle, gs_finally, GsInv, h3]

theorem gsLoop_release (tid mr : Nat) (fuel : Nat) :
    ∀ st waits calls, GsInv tid st →
      (gsLoop tid mr fuel st waits calls).1 ≠ .outOfFuel →
      ((gsLoop tid mr fuel st waits calls).2).limiter.retrierId ≠ some tid := by
  induction fuel with
  | zero =>
    intro st waits calls _ h
    exact absurd rfl h
  | succ fuel ih =>
    intro st waits calls hinv
    have hstep := gsStep_inv tid mr st waits calls hinv
    rw [gsLoop]
    cases hs : gsStep tid mr st waits calls with
    | ret r st' =>
      rw [hs] at hstep
      exact fun _ => by simpa using hstep
    | stuck st' =>
      exact fun h => absurd rfl h
    | cont st' ws cs =>
      rw [hs] at hstep
      exact ih st' ws cs hstep

/-- C1: at every reachable state of the throttle at most one thread is
recorded as leader (structurally, `retrierId` is a single optional field),
and the overload flag holds iff a leader is assigned: the invariant holds
initially and is preserved by `try_become_retrier`, `release_rate_limit`
and `wait_for_rate_limit_release`; moreover `release_rate_limit` changes
the state only when the caller is the recorded leader, and is otherwise a
no-op returning `false`. -/
theorem limiter_invariant_and_release_guard :
    LimiterInv initialLimiter ∧
    (∀ s tid, LimiterInv s → LimiterInv (try_become_retrier s tid).1) ∧
    (∀ s tid, LimiterInv s → LimiterInv (release_rate_limit s tid).1) ∧
    (∀ s w, LimiterInv s → LimiterInv (wait_for_rate_limit_release s w).1) ∧
    (∀ s tid, (release_rate_limit s tid).1 ≠ s → s.retrierId = some tid) ∧
    (∀ s tid, s.retrierId ≠ some tid → release_rate_limit s tid = (s, false)) := by
  refine ⟨rfl, ?_, ?_, ?_, ?_, ?_⟩
  · intro s tid _
    unfold try_become_retrier LimiterInv is_rate_limited at *
    split <;> simp_all
  · intro s tid _
    unfold release_rate_limit LimiterInv is_rate_limited at *
    split <;> simp_all
  · intro s w _
    unfold wait_for_rate_limit_release LimiterInv is_rate_limited at *
    split
    · cases w <;> simp_all
    · simp_all
  · intro s tid h
    unfold release_rate_limit at h
    by_cases hc : (is_rate_limited s && s.retrierId == some tid) = true
    · exact beq_iff_eq.mp (Bool.and_elim_right hc)
    · simp [hc] at h
  · intro s tid h
    unfold release_rate_limit
    have : (s.retrierId == some tid) = false := beq_eq_false_iff_ne.mpr h
    simp [this]

/-- C1 witness at concrete states. -/
theorem limiter_invariant_and_release_guard_witness :
    LimiterInv (try_become_retrier initialLimiter 7).1 ∧
    release_rate_limit { eventSet := false, retrierId := some 3 } 5 =
      ({ eventSet := false, retrierId := some 3 }, false) := by
  refine ⟨?_, ?_⟩
  · exact limiter_invariant_and_release_guard.2.1 initialLimiter 7 (by decide)
  · exact limiter_invariant_and_release_guard.2.2.2.2.2
      { eventSet := false, retrierId := some 3 } 5 (by decide)

/-- C2: for every caller id, `try_become_retrier` (at any state satisfying
the throttle invariant) returns `true` and installs the caller as leader
when no leader is assigned; returns `true` without changing state when the
caller is already the leader; and returns `false` without changing state
when a different thread holds leadership. -/
theorem try_become_retrier_spec (s : LimiterState) (tid : Nat) (h : LimiterInv s) :
    (s.retrierId = none →
      try_become_retrier s tid = ({ eventSet := false, retrierId := some tid }, true)) ∧
    (s.retrierId = some tid → try_become_retrier s tid = (s, true)) ∧
    (∀ t, s.retrierId = some t → t ≠ tid → try_become_retrier s tid = (s, false)) := by
  unfold LimiterInv is_rate_limited at h
  refine ⟨?_, ?_, ?_⟩
  · intro hn
    unfold try_become_retrier is_rate_limited
    rw [hn] at h
    simp at h
    simp [h]
  · intro hs
    unfold try_become_retrier is_rate_limited
    rw [hs] at h
    simp at h
    simp [h, hs]
  · intro t ht hne
    unfold try_become_retrier is_rate_limited
    rw [ht] at h
    simp at h
    simp [h, ht, hne]

/-- C2 witness at concrete states. -/
theorem try_become_retrier_spec_witness :
    try_become_retrier initialLimiter 4 = ({ eventSet := false, retrierId := some 4 }, true) ∧
    try_become_retrier { eventSet := false, retrierId := some 4 } 4 =
      ({ eventSet := false, retrierId := some 4 }, true) ∧
    try_become_retrier { eventSet := false, retrierId := some 4 } 9 =
      ({ eventSet := false, retrierId := some 4 }, false) := by
  refine ⟨?_, ?_, ?_⟩
  · exact (try_become_retrier_spec initialLimiter 4 (by decide)).1 rfl
  · exact (try_become_retrier_spec { eventSet := false, retrierId := some 4 } 4
      (by decide)).2.1 rfl
  · exact (try_become_retrier_spec { eventSet := false, retrierId := some 4 } 9
      (by decide)).2.2 4 rfl (by decide)

/-- C3: along any admissible sequence of `wait_for_interval` executions
(each one's read of `last_call_time`, sleep and update forming one guarded
unit), any two successive recorded last-call timestamps differ by at least
the configured minimum interval. -/
theorem wait_for_interval_spacing (interval last : ℚ) (ts : List (ℚ × ℚ))
    (h : ValidIntervalTrace interval last ts) :
    List.Chain (fun a b => a + interval ≤ b) last (recordedTimes ts) := by
  induction ts generalizing last with
  | nil => exact List.Chain.nil
  | cons p rest ih =>
    obtain ⟨hstep, hrest⟩ := h
    exact List.Chain.cons
      (le_trans (wait_for_interval_target_ge last interval p.1) hstep)
      (ih p.2 hrest)

/-- C3 witness: a concrete two-step trace with interval 1 starting from
`last_call_time = 0`. -/
theorem wait_for_interval_spacing_witness :
    List.Chain (fun a b => a + (1 : ℚ) ≤ b) 0 (recordedTimes [(0, 1), (5, 5)]) := by
  apply wait_for_interval_spacing 1 0 [(0, 1), (5, 5)]
  refine ⟨?_, ?_, trivial⟩ <;> norm_num [IntervalStep, wait_for_interval_target]

/-! ### Theorems about the `generate_summary` loop (claims C4 to C8) -/

theorem gsStep_no_transient (tid mr : Nat) (st : GsState) (waits : List WaitResult)
    (calls : List CallOutcome) (h : ∀ m, CallOutcome.otherErr m ∉ calls) :
    match gsStep tid mr st waits calls with
    | .ret r st' => (∀ msg, r ≠ .failed msg) ∧ st'.attempt = st.attempt
    | .cont st' _ cs => st'.attempt = st.attempt ∧ ∀ m, CallOutcome.otherErr m ∉ cs
    | .stuck st' => st'.attempt = st.attempt := by
  obtain ⟨⟨ev, rid⟩, flag, att, cm, rs⟩ := st
  cases ev with
  | false =>
    by_cases hbeq : (rid == some tid) = true
    · cases calls with
      | nil => simp [gsStep, is_rate_limited, hbeq]
      | cons c cs =>
        have hcs : ∀ m, CallOutcome.otherErr m ∉ cs :=
          fun m hm => h m (List.mem_cons_of_mem _ hm)
        cases c with
        | success s =>
          cases flag <;>
            simp [gsStep, is_rate_limited, hbeq, release_rate_limit, gs_finally_attempt,
              gs_finally]
        | http429 =>
          simp [gsStep, is_rate_limited, hbeq, try_become_retrier, hcs]
        | otherErr msg =>
          exact absurd (List.mem_cons_self _ _) (h msg)
    · cases waits with
      | nil => simp [gsStep, is_rate_limited, hbeq]
      | cons w ws =>
        cases w <;>
          simp [gsStep, is_rate_limited, hbeq, wait_for_rate_limit_release, h]
  | true =>
    cases calls with
    | nil => simp [gsStep, is_rate_limited]
    | cons c cs =>
      have hcs : ∀ m, CallOutcome.otherErr m ∉ cs :=
        fun m hm => h m (List.mem_cons_of_mem _ hm)
      cases c with
      | success s =>
        cases flag <;>
          simp [gsStep, is_rate_limited, release_rate_limit, gs_finally_attempt, gs_finally]
      | http429 =>
        simp [gsStep, is_rate_limited, try_become_retrier, hcs]
      | otherErr msg =>
        exact absurd (List.mem_cons_self _ _) (h msg)

theorem gsLoop_no_transient (tid mr : Nat) (fuel : Nat) :
    ∀ st waits calls, (∀ m, CallOutcome.otherErr m ∉ calls) →
      (∀ msg, (gsLoop tid mr fuel st waits calls).1 ≠ .failed msg) ∧
      ((gsLoop tid mr fuel st waits calls).2).attempt = st.attempt := by
  induction fuel with
  | zero =>
    intro st waits calls _
    exact ⟨(fun msg h => nomatch h), rfl⟩
  | succ fuel ih =>
    intro st waits calls h
    have hstep := gsStep_no_transient tid mr st waits calls h
    rw [gsLoop]
    cases hs : gsStep tid mr st waits calls with
    | ret r st' =>
      rw [hs] at hstep
      exact hstep
    | stuck st' =>
      rw [hs] at hstep
      exact ⟨(fun msg h => nomatch h), hstep⟩
    | cont st' ws cs =>
      rw [hs] at hstep
      obtain ⟨hatt, hcs⟩ := hstep
      obtain ⟨h1, h2⟩ := ih st' ws cs hcs
      exact ⟨h1, h2.trans hatt⟩

theorem gsStep_failed_exhausts (tid mr : Nat) (st : GsState) (waits : List WaitResult)
    (calls : List CallOutcome) (h : st.attempt < mr) :
    match gsStep tid mr st waits calls with
    | .ret r st' => ∀ msg, r = .failed msg → st'.attempt = mr
    | .cont st' _ _ => st'.attempt < mr
    | .stuck _ => True := by
  obtain ⟨⟨ev, rid⟩, flag, att, cm, rs⟩ := st
  simp only at h
  cases ev with
  | false =>
    by_cases hbeq : (rid == some tid) = true
    · cases calls with
      | nil => simp [gsStep, is_rate_limited, hbeq]
      | cons c cs =>
        cases c with
        | success s =>
          cases flag <;>
            simp [gsStep, is_rate_limited, hbeq, release_rate_limit, gs_finally]
        | http429 =>
          simp [gsStep, is_rate_limited, hbeq, try_become_retrier, h]
        | otherErr msg =>
          by_cases hle : mr ≤ att + 1 <;>
            simp [gsStep, is_rate_limited, hbeq, hle, gs_finally_attempt] <;> omega
    · cases waits with
      | nil => simp [gsStep, is_rate_limited, hbeq]
      | cons w ws =>
        cases w <;>
          simp [gsStep, is_rate_limited, hbeq, wait_for_rate_limit_release, h]
  | true =>
    cases calls with
    | nil => simp [gsStep, is_rate_limited]
    | cons c cs =>
      cases c with
      | success s =>
        cases flag <;>
          simp [gsStep, is_rate_limited, release_rate_limit, gs_finally]
      | http429 =>
        simp [gsStep, is_rate_limited, try_become_retrier, h]
      | otherErr msg =>
        by_cases hle : mr ≤ att + 1 <;>
          simp [gsStep, is_rate_limited, hle, gs_finally_attempt] <;> omega

theorem gsLoop_failed_exhausts (tid mr : Nat) (fuel : Nat) :
    ∀ st waits calls msg, st.attempt < mr →
      (gsLoop tid mr fuel st waits calls).1 = .failed msg →
      ((gsLoop tid mr fuel st waits calls).2).attempt = mr := by
  induction fuel with
  | zero =>
    intro st waits calls msg _ hfail
    cases hfail
  | succ fuel ih =>
    intro st waits calls msg hlt
    have hstep := gsStep_failed_exhausts tid mr st waits calls hlt
    rw [gsLoop]
    cases hs : gsStep tid mr st waits calls with
    | ret r st' =>
      rw [hs] at hstep
      exact fun hr => hstep msg hr
    | stuck st' =>
      intro hfail
      cases hfail
    | cont st' ws cs =>
      rw [hs] at hstep
      exact ih st' ws cs msg hstep

theorem gsLoop_all_transient (tid mr : Nat) (m : String) :
    ∀ n fuel st waits, 1 ≤ n → n ≤ fuel →
      is_rate_limited st.limiter = false → st.attempt + n = mr →
      gsLoop tid mr fuel st waits (List.replicate n (CallOutcome.otherErr m)) =
        (.failed m, { st with
                        attempt := mr, callsMade := st.callsMade + n,
                        retrySleeps := st.retrySleeps + (n - 1) }) := by
  intro n
  induction n with
  | zero => omega
  | succ k ih =>
    intro fuel st waits _ hfuel hlim hmr
    obtain ⟨f, rfl⟩ : ∃ f, fuel = f + 1 := ⟨fuel - 1, by omega⟩
    obtain ⟨⟨ev, rid⟩, flag, att, cm, rs⟩ := st
    simp only [is_rate_limited] at hlim
    have hev : ev = true := by simpa using hlim
    subst hev
    simp only at hmr
    cases k with
    | zero =>
      have hle : mr ≤ att + 1 := by omega
      rw [gsLoop]
      simp [gsStep, is_rate_limited, hle, List.replicate, gs_finally]
      omega
    | succ j =>
      have hle : ¬ (mr ≤ att + 1) := by omega
      have hstep : gsStep tid mr ⟨⟨true, rid⟩, flag, att, cm, rs⟩ waits
          (List.replicate (j + 1 + 1) (CallOutcome.otherErr m)) =
          .cont ⟨⟨true, rid⟩, flag, att + 1, cm + 1, rs + 1⟩ waits
            (List.replicate (j + 1) (CallOutcome.otherErr m)) := by
        simp [gsStep, is_rate_limited, hle, List.replicate]
      rw [gsLoop, hstep]
      show gsLoop tid mr f ⟨⟨true, rid⟩, flag, att + 1, cm + 1, rs + 1⟩ waits
        (List.replicate (j + 1) (CallOutcome.otherErr m)) = _
      rw [ih f ⟨⟨true, rid⟩, flag, att + 1, cm + 1, rs + 1⟩ waits (by omega) (by omega)
        (by simp [is_rate_limited]) (by simp only; omega)]
      simp only [Prod.mk.injEq, GsState.mk.injEq, true_and, and_true]
      omega

theorem gsLoop_follower_waits (tid other mr : Nat) (s : String) (hne : other ≠ tid) :
    ∀ k fuel, k + 2 ≤ fuel →
      gsLoop tid mr fuel (gsStart { eventSet := false, retrierId := some other })
        (List.replicate k WaitResult.timedOut ++ [WaitResult.released])
        [CallOutcome.success s] =
      (.ok s, { limiter := { eventSet := true, retrierId := none }, is429Retrier := false,
                attempt := 0, callsMade := 1, retrySleeps := 0 }) := by
  have hbeq : (some other == some tid) = false := by simpa using hne
  intro k
  induction k with
  | zero =>
    intro fuel hfuel
    obtain ⟨f, rfl⟩ : ∃ f, fuel = f + 2 := ⟨fuel - 2, by omega⟩
    rw [gsLoop]
    have hstep : gsStep tid mr (gsStart { eventSet := false, retrierId := some other })
        (List.replicate 0 WaitResult.timedOut ++ [WaitResult.released])
        [CallOutcome.success s] =
        .cont (gsStart { eventSet := true, retrierId := none }) []
          [CallOutcome.success s] := by
      simp [gsStep, gsStart, is_rate_limited, hbeq, wait_for_rate_limit_release]
    rw [hstep]
    show gsLoop tid mr (f + 1) (gsStart { eventSet := true, retrierId := none }) []
      [CallOutcome.success s] = _
    rw [gsLoop]
    simp [gsStep, gsStart, is_rate_limited, gs_finally]
  | succ k ih =>
    intro fuel hfuel
    obtain ⟨f, rfl⟩ : ∃ f, fuel = f + 1 := ⟨fuel - 1, by omega⟩
    rw [gsLoop]
    have hstep : gsStep tid mr (gsStart { eventSet := false, retrierId := some other })
        (List.replicate (k + 1) WaitResult.timedOut ++ [WaitResult.released])
        [CallOutcome.success s] =
        .cont (gsStart { eventSet := false, retrierId := some other })
          (List.replicate k WaitResult.timedOut ++ [WaitResult.released])
          [CallOutcome.success s] := by
      simp [gsStep, gsStart, is_rate_limited, hbeq, wait_for_rate_limit_release,
        List.replicate]
    rw [hstep]
    exact ih f (by omega)

/-! ### Field-map and `process_file` lemmas (used by claims C6, C9, C10) -/

theorem lookupField_map_set (data : List (String × String)) (key v k : String)
    (hk : k ≠ key) :
    lookupField (data.map fun p => if p.1 = key then (key, v) else p) k =
      lookupField data k := by
  induction data with
  | nil => rfl
  | cons p rest ih =>
    by_cases hp : p.1 = key
    · simp [lookupField, hp, Ne.symm hk, ih]
    · simp [lookupField, hp, ih]

theorem lookupField_append_single (data : List (String × String)) (key v k : String)
    (hk : k ≠ key) :
    lookupField (data ++ [(key, v)]) k = lookupField data k := by
  induction data with
  | nil => simp [lookupField, Ne.symm hk]
  | cons p rest ih =>
    by_cases hp : p.1 = k <;> simp [lookupField, hp, ih]

theorem lookupField_setField_ne (data : List (String × String)) (key v k : String)
    (hk : k ≠ key) :
    lookupField (setField data key v) k = lookupField data k := by
  unfold setField
  split
  · exact lookupField_map_set data key v k hk
  · exact lookupField_append_single data key v k hk

theorem lookupField_map_set_self (data : List (String × String)) (key v : String)
    (h : (lookupField data key).isSome) :
    lookupField (data.map fun p => if p.1 = key then (key, v) else p) key = some v := by
  induction data with
  | nil => simp [lookupField] at h
  | cons p rest ih =>
    by_cases hp : p.1 = key
    · simp [lookupField, hp]
    · simp only [lookupField, hp, if_false] at h ⊢
      exact ih h

theorem lookupField_append_single_self (data : List (String × String)) (key v : String)
    (h : lookupField data key = none) :
    lookupField (data ++ [(key, v)]) key = some v := by
  induction data with
  | nil => simp [lookupField]
  | cons p rest ih =>
    by_cases hp : p.1 = key
    · simp [lookupField, hp] at h
    · simp only [lookupField, hp, if_false] at h ⊢
      exact ih h

theorem lookupField_setField_self (data : List (String × String)) (key v : String) :
    lookupField (setField data key v) key = some v := by
  unfold setField
  split
  · exact lookupField_map_set_self data key v (by assumption)
  · rename_i h
    exact lookupField_append_single_self data key v (Option.not_isSome_iff_eq_none.mp h)

theorem process_file_skip (tid mr fuel : Nat) (lim : LimiterState)
    (waits : List WaitResult) (calls : List CallOutcome)
    (data : List (String × String)) (h : hasNonEmpty data "summary" = true) :
    process_file tid mr fuel lim waits calls data = some (true, data, 0) := by
  unfold process_file
  rw [h]
  simp

theorem process_file_frame_helper (tid mr fuel : Nat) (lim : LimiterState)
    (waits : List WaitResult) (calls : List CallOutcome)
    (data d : List (String × String)) (b : Bool) (n : Nat)
    (h : process_file tid mr fuel lim waits calls data = some (b, d, n)) :
    (∀ k, k ≠ "summary" → lookupField d k = lookupField data k) ∧
    (b = false → d = data) ∧
    (b = true → hasNonEmpty d "summary" = true) := by
  unfold process_file at h
  split at h
  · rename_i hsum
    simp only [Option.some.injEq, Prod.mk.injEq] at h
    obtain ⟨hb, hd, -⟩ := h
    subst hb; subst hd
    exact ⟨fun _ _ => rfl, fun hf => absurd hf (by decide), fun _ => hsum⟩
  · split at h
    · simp only [Option.some.injEq, Prod.mk.injEq] at h
      obtain ⟨hb, hd, -⟩ := h
      subst hb; subst hd
      exact ⟨fun _ _ => rfl, fun _ => rfl, fun ht => absurd ht (by decide)⟩
    · split at h
      · cases h
      · rename_i s st' heq
        split at h
        · simp only [Option.some.injEq, Prod.mk.injEq] at h
          obtain ⟨hb, hd, -⟩ := h
          subst hb; subst hd
          exact ⟨fun _ _ => rfl, fun _ => rfl, fun ht => absurd ht (by decide)⟩
        · rename_i hs
          simp only [Option.some.injEq, Prod.mk.injEq] at h
          obtain ⟨hb, hd, -⟩ := h
          subst hb; subst hd
          refine ⟨fun k hk => lookupField_setField_ne data "summary" s k hk,
            (fun hf => absurd hf (by decide)), fun _ => ?_⟩
          unfold hasNonEmpty
          rw [lookupField_setField_self]
          simpa using hs
      · simp only [Option.some.injEq, Prod.mk.injEq] at h
        obtain ⟨hb, hd, -⟩ := h
        subst hb; subst hd
        exact ⟨fun _ _ => rfl, fun _ => rfl, fun ht => absurd ht (by decide)⟩

/-- C4: on every exit path of `generate_summary` (success, failure after
exhausted retries), if the activation started with its local retrier flag
and the shared retrier record in agreement (in particular a fresh
activation, `gsStart`), then whenever the function returns, the calling
thread is no longer the recorded leader: leadership has been released
before the return (by the success path or by the `finally` block). -/
theorem generate_summary_releases_leadership (tid mr fuel : Nat) (st : GsState)
    (waits : List WaitResult) (calls : List CallOutcome) (h : GsInv tid st)
    (hret : (generate_summary tid mr fuel st waits calls).1 ≠ .outOfFuel) :
    ((generate_summary tid mr fuel st waits calls).2).limiter.retrierId ≠ some tid :=
  gsLoop_release tid mr fuel st waits calls h hret

/-- C4 witness: a run in which the thread becomes the 429 retrier and then
fails out by exhausting retries still ends with leadership released. -/
theorem generate_summary_releases_leadership_witness :
    ((generate_summary 1 2 6 (gsStart initialLimiter) []
        [CallOutcome.http429, CallOutcome.otherErr "a",
         CallOutcome.otherErr "b"]).2).limiter.retrierId ≠ some 1 :=
  generate_summary_releases_leadership 1 2 6 (gsStart initialLimiter) []
    [CallOutcome.http429, CallOutcome.otherErr "a", CallOutcome.otherErr "b"]
    (by decide) (by decide)

/-- C5 counterexample: after a timed-out `wait_for_rate_limit_release`, the
worker does NOT proceed to issue a fresh remote-call attempt while the
overload flag is still set.  Concretely: overload set with retrier thread 2,
worker thread 1 given one wait permit (which times out) and an available
successful remote outcome; the claim predicts the worker then issues the
call and returns success, but the run makes zero remote calls (it loops
back and tries to re-enter the wait, exhausting the wait stream). -/
theorem follower_timeout_does_not_proceed :
    (generate_summary 1 10 5 (gsStart { eventSet := false, retrierId := some 2 })
        [WaitResult.timedOut] [CallOutcome.success "hi"]).1 = GsResult.outOfFuel ∧
    ((generate_summary 1 10 5 (gsStart { eventSet := false, retrierId := some 2 })
        [WaitResult.timedOut] [CallOutcome.success "hi"]).2).callsMade = 0 :=
  ⟨rfl, rfl⟩

/-- C5 (amended): a non-leader worker that observes the overload flag waits
in `wait_for_rate_limit_release` with a timeout; when the timeout elapses
with the flag still set it logs and loops back, re-entering the wait (one
wait permit is consumed per timeout), and it issues a remote-call attempt
only once the overload flag has cleared. -/
theorem follower_reenters_wait_until_release (tid other mr k fuel : Nat) (s : String)
    (hne : other ≠ tid) (hfuel : k + 2 ≤ fuel) :
    generate_summary tid mr fuel (gsStart { eventSet := false, retrierId := some other })
      (List.replicate k WaitResult.timedOut ++ [WaitResult.released])
      [CallOutcome.success s] =
    (.ok s, { limiter := { eventSet := true, retrierId := none }, is429Retrier := false,
              attempt := 0, callsMade := 1, retrySleeps := 0 }) :=
  gsLoop_follower_waits tid other mr s hne k fuel hfuel

/-- C5 witness: three timeouts, then a release, then the single call. -/
theorem follower_reenters_wait_until_release_witness :
    generate_summary 1 10 5 (gsStart { eventSet := false, retrierId := some 2 })
      (List.replicate 3 WaitResult.timedOut ++ [WaitResult.released])
      [CallOutcome.success "hi"] =
    (.ok "hi", { limiter := { eventSet := true, retrierId := none }, is429Retrier := false,
                 attempt := 0, callsMade := 1, retrySleeps := 0 }) :=
  follower_reenters_wait_until_release 1 2 10 3 5 "hi" (by decide) (by decide)

/-- C6 counterexample: a malformed-response (non-429) error does not make
`generate_summary` return failure immediately with zero further retries:
with remote outcomes [malformed response, success] the function issues a
second remote call and returns success. -/
theorem non_retryable_error_is_retried :
    (generate_summary 1 10 5 (gsStart initialLimiter) []
        [CallOutcome.otherErr "malformed response", CallOutcome.success "s"]).1 =
      GsResult.ok "s" ∧
    ((generate_summary 1 10 5 (gsStart initialLimiter) []
        [CallOutcome.otherErr "malformed response",
         CallOutcome.success "s"]).2).callsMade = 2 :=
  ⟨rfl, rfl⟩

/-- C6 (amended): the code has no permanent-failure classification: a
malformed response or other non-429 error is retried like any transient
failure, and `generate_summary` returns failure only once the attempt
counter reaches `max_retries` (never immediately after a first error when
`max_retries > attempt + 1`); on any failure `process_file` leaves the
persisted record entirely unchanged. -/
theorem non429_failure_only_after_ceiling :
    (∀ tid mr fuel st waits calls msg, st.attempt < mr →
      (generate_summary tid mr fuel st waits calls).1 = .failed msg →
      ((generate_summary tid mr fuel st waits calls).2).attempt = mr) ∧
    (∀ tid mr fuel lim waits calls data d b n,
      process_file tid mr fuel lim waits calls data = some (b, d, n) →
      b = false → d = data) := by
  constructor
  · exact fun tid mr fuel st waits calls msg h hf =>
      gsLoop_failed_exhausts tid mr fuel st waits calls msg h hf
  · exact fun tid mr fuel lim waits calls data d b n h hb =>
      (process_file_frame_helper tid mr fuel lim waits calls data d b n h).2.1 hb

/-- C6 witness: a failing run reaches the ceiling of 2 attempts, and a
failing `process_file` run leaves the record unchanged. -/
theorem non429_failure_only_after_ceiling_witness :
    ((generate_summary 1 2 6 (gsStart initialLimiter) []
        [CallOutcome.otherErr "a", CallOutcome.otherErr "b"]).2).attempt = 2 ∧
    ([("content", "c")] : List (String × String)) = [("content", "c")] :=
  ⟨non429_failure_only_after_ceiling.1 1 2 6 (gsStart initialLimiter) []
      [CallOutcome.otherErr "a", CallOutcome.otherErr "b"] "b" (by decide) rfl,
   non429_failure_only_after_ceiling.2 1 1 3 initialLimiter []
      [CallOutcome.otherErr "e"] [("content", "c")] [("content", "c")] false 1 rfl rfl⟩

/-- C7: when every remote call yields a non-429 transient failure,
`generate_summary` increments the attempt counter once per attempt, sleeps
the retry delay between attempts (exactly `max_retries - 1` sleeps), and
returns failure after exactly `max_retries` remote-call attempts. -/
theorem generate_summary_transient_exhaustion (tid mr fuel : Nat) (m : String)
    (waits : List WaitResult) (lim : LimiterState) (h1 : 1 ≤ mr) (h2 : mr ≤ fuel)
    (hlim : is_rate_limited lim = false) :
    generate_summary tid mr fuel (gsStart lim)
        waits (List.replicate mr (CallOutcome.otherErr m)) =
      (.failed m, { limiter := lim, is429Retrier := false, attempt := mr,
                    callsMade := mr, retrySleeps := mr - 1 }) := by
  have h := gsLoop_all_transient tid mr m mr fuel (gsStart lim) waits h1 h2 hlim
    (by simp [gsStart])
  simpa [generate_summary, gsStart] using h

/-- C7 witness: ceiling 3 gives exactly 3 attempts and 2 retry sleeps. -/
theorem generate_summary_transient_exhaustion_witness :
    generate_summary 1 3 3 (gsStart initialLimiter)
        [] (List.replicate 3 (CallOutcome.otherErr "boom")) =
      (.failed "boom", { limiter := initialLimiter, is429Retrier := false, attempt := 3,
                         callsMade := 3, retrySleeps := 2 }) :=
  generate_summary_transient_exhaustion 1 3 3 "boom" [] initialLimiter
    (by decide) (by decide) (by decide)

/-- C8: a rate-limited (429) remote outcome never increments the retry
attempt counter and is never by itself counted as failure: a run whose
remote outcomes contain no non-429 error never returns failure and leaves
the attempt counter unchanged; and any run that does return failure has
driven the attempt counter to the `max_retries` ceiling (exhaustion is the
only path from rate limiting to a failed item). -/
theorem rate_limited_not_counted (tid mr fuel : Nat) (st : GsState)
    (waits : List WaitResult) (calls : List CallOutcome) :
    ((∀ m, CallOutcome.otherErr m ∉ calls) →
      (∀ msg, (generate_summary tid mr fuel st waits calls).1 ≠ .failed msg) ∧
      ((generate_summary tid mr fuel st waits calls).2).attempt = st.attempt) ∧
    (∀ msg, st.attempt < mr →
      (generate_summary tid mr fuel st waits calls).1 = .failed msg →
      ((generate_summary tid mr fuel st waits calls).2).attempt = mr) := by
  constructor
  · exact fun hno => gsLoop_no_transient tid mr fuel st waits calls hno
  · exact fun msg h hf => gsLoop_failed_exhausts tid mr fuel st waits calls msg h hf

/-- C8 witness: two 429s followed by a success never fail and leave the
counter at 0; a mixed run that fails has counter at the ceiling. -/
theorem rate_limited_not_counted_witness :
    ((∀ msg, (generate_summary 1 10 6 (gsStart initialLimiter) []
        [CallOutcome.http429, CallOutcome.http429, CallOutcome.success "s"]).1 ≠
          GsResult.failed msg) ∧
      ((generate_summary 1 10 6 (gsStart initialLimiter) []
        [CallOutcome.http429, CallOutcome.http429,
         CallOutcome.success "s"]).2).attempt = 0) ∧
    ((generate_summary 2 2 6 (gsStart initialLimiter) []
        [CallOutcome.http429, CallOutcome.otherErr "a",
         CallOutcome.otherErr "b"]).2).attempt = 2 :=
  ⟨(rate_limited_not_counted 1 10 6 (gsStart initialLimiter) []
      [CallOutcome.http429, CallOutcome.http429, CallOutcome.success "s"]).1
      (by intro m; simp),
   (rate_limited_not_counted 2 2 6 (gsStart initialLimiter) []
      [CallOutcome.http429, CallOutcome.otherErr "a", CallOutcome.otherErr "b"]).2
      "b" (by decide) (by decide)⟩

/-- C9: for every record whose `summary` field is present and non-empty,
`process_file` performs zero remote calls and reports success with the
record unchanged; consequently a second run over the record persisted by
any successful run performs zero remote calls, changes nothing, and
reports success (repeated runs are convergent). -/
theorem process_file_idempotent (tid mr fuel : Nat) (lim : LimiterState)
    (waits : List WaitResult) (calls : List CallOutcome)
    (tid2 mr2 fuel2 : Nat) (lim2 : LimiterState)
    (waits2 : List WaitResult) (calls2 : List CallOutcome)
    (data : List (String × String)) :
    (hasNonEmpty data "summary" = true →
      process_file tid mr fuel lim waits calls data = some (true, data, 0)) ∧
    (∀ d n, process_file tid mr fuel lim waits calls data = some (true, d, n) →
      process_file tid2 mr2 fuel2 lim2 waits2 calls2 d = some (true, d, 0)) := by
  constructor
  · exact process_file_skip tid mr fuel lim waits calls data
  · intro d n h
    exact process_file_skip tid2 mr2 fuel2 lim2 waits2 calls2 d
      ((process_file_frame_helper tid mr fuel lim waits calls data d true n h).2.2 rfl)

/-- C9 witness: a record that already has a summary is skipped with zero
calls, and re-processing the record written by a successful first run is a
zero-call success. -/
theorem process_file_idempotent_witness :
    (process_file 1 10 3 initialLimiter [] [] [("content", "c"), ("summary", "done")] =
      some (true, [("content", "c"), ("summary", "done")], 0)) ∧
    (process_file 2 10 3 initialLimiter [] []
        ((process_file 1 10 3 initialLimiter [] [CallOutcome.success "hi"]
          [("content", "c")]).getD (false, [], 0)).2.1 =
      some (true, ((process_file 1 10 3 initialLimiter [] [CallOutcome.success "hi"]
          [("content", "c")]).getD (false, [], 0)).2.1, 0)) :=
  ⟨(process_file_idempotent 1 10 3 initialLimiter [] [] 0 0 0 initialLimiter [] []
      [("content", "c"), ("summary", "done")]).1 (by decide),
   (process_file_idempotent 1 10 3 initialLimiter [] [CallOutcome.success "hi"]
      2 10 3 initialLimiter [] [] [("content", "c")]).2
      [("content", "c"), ("summary", "hi")] 1 rfl⟩

/-- C10: the only persisted change `process_file` ever makes is populating
the `summary` field: whatever the outcome, every field other than `summary`
reads the same in the persisted record as before (the success rewrite via
write-to-temporary-then-atomic-rename is modelled as the single atomic
record replacement); on failure the record is entirely unchanged; and on
success the persisted record carries a non-empty `summary`. -/
theorem process_file_only_writes_summary (tid mr fuel : Nat) (lim : LimiterState)
    (waits : List WaitResult) (calls : List CallOutcome)
    (data d : List (String × String)) (b : Bool) (n : Nat)
    (h : process_file tid mr fuel lim waits calls data = some (b, d, n)) :
    (∀ k, k ≠ "summary" → lookupField d k = lookupField data k) ∧
    (b = false → d = data) ∧
    (b = true → hasNonEmpty d "summary" = true) :=
  process_file_frame_helper tid mr fuel lim waits calls data d b n h

/-- C10 witness: a successful write leaves `content` unchanged and
populates `summary`. -/
theorem process_file_only_writes_summary_witness :
    (lookupField [("content", "c"), ("summary", "hi")] "content" =
      lookupField [("content", "c")] "content") ∧
    (hasNonEmpty [("content", "c"), ("summary", "hi")] "summary" = true) := by
  have h := process_file_only_writes_summary 1 10 3 initialLimiter []
    [CallOutcome.success "hi"] [("content", "c")]
    [("content", "c"), ("summary", "hi")] true 1 rfl
  exact ⟨h.1 "content" (by decide), h.2.2 rfl⟩
